import Mathlib

/-
Verification of the batch-inference evaluator layer of the scanner
repository, as implemented in
src/scanner/evaluators/caffe/caffe_cpu_evaluator.cpp.

The embedding models machine state explicitly: a Caffe net is an
association list from blob names to blobs, a blob is a tensor shape
together with its raw byte storage, and the external collaborators
(net loading, the input transformer's pixel transform, the forward
pass) are parameters of the operations that invoke them.  Fallible
operations (a blob lookup that can return a null shared_ptr which is
then dereferenced) return Option.
-/

set_option autoImplicit false

namespace Scanner

/-- Device types of the evaluator framework (scanner/util/common.h). -/
inductive DeviceType
  | CPU
  | GPU
deriving DecidableEq, Inhabited

/-- Caffe's computation modes, targets of `device_type_to_caffe_mode`. -/
inductive CaffeMode
  | CPU
  | GPU
deriving DecidableEq, Inhabited

/-- device_type_to_caffe_mode, as used at construction (line 33). -/
def device_type_to_caffe_mode : DeviceType → CaffeMode
  | DeviceType.CPU => CaffeMode.CPU
  | DeviceType.GPU => CaffeMode.GPU

/-- EvaluatorConfig: resource limits for one evaluator instance. -/
structure EvaluatorConfig where
  max_batch_size : Nat
  max_frame_width : Nat
  max_frame_height : Nat
  device_id : Nat
deriving DecidableEq, Inhabited

/-- NetDescriptor: static description of a trained network. -/
structure NetDescriptor where
  model_path : String
  model_weights_path : String
  input_layer_name : String
  output_layer_names : List String
deriving DecidableEq, Inhabited

/-- DatasetItemMetadata: geometry of the frames currently flowing. -/
structure DatasetItemMetadata where
  width : Nat
  height : Nat
deriving DecidableEq, Inhabited

/-- A Caffe blob: a tensor shape together with its raw byte storage. -/
structure Blob where
  shape : List Nat
  data : List Nat
deriving DecidableEq, Inhabited

/-- blob->shape(i): the i-th tensor dimension. -/
def Blob.shapeAt (b : Blob) (i : Nat) : Nat := b.shape.getD i 0

/-- blob->count(k): number of elements in dimensions k and onwards. -/
def Blob.count (b : Blob) (k : Nat) : Nat := (b.shape.drop k).foldl (· * ·) 1

/-- sizeof(float) on the modelled platform. -/
def sizeofFloat : Nat := 4

/-- sizeof(char). -/
def sizeofChar : Nat := 1

/-- blob->Reshape(s): the shape is replaced and the storage resized to the
new element count, contents preserved up to the new size. -/
def Blob.reshapeTo (b : Blob) (s : List Nat) : Blob :=
  { shape := s,
    data :=
      b.data.take (s.foldl (· * ·) 1 * sizeofFloat) ++
      List.replicate
        (s.foldl (· * ·) 1 * sizeofFloat -
          (b.data.take (s.foldl (· * ·) 1 * sizeofFloat)).length) 0 }

/-- A loaded Caffe net: blobs addressable by name. -/
abbrev Net := List (String × Blob)

/-- Net::blob_by_name: `none` models the null shared_ptr returned when no
blob carries that name. -/
def Net.blob_by_name (net : Net) (nm : String) : Option Blob :=
  (List.find? (fun p => p.1 == nm) net).map Prod.snd

/-- Writing a blob back through a handle obtained from the net. -/
def Net.setBlob (net : Net) (nm : String) (b : Blob) : Net :=
  List.map (fun p => if p.1 == nm then (nm, b) else p) net

/-- The CaffeInputTransformer collaborator: the evaluator only ever hands it
its construction inputs and configure calls. -/
structure CaffeInputTransformer where
  config : EvaluatorConfig
  descriptor : NetDescriptor
  configured_metadata : Option DatasetItemMetadata
deriving DecidableEq, Inhabited

/-- transformer->configure(metadata). -/
def CaffeInputTransformer.configure (t : CaffeInputTransformer)
    (metadata : DatasetItemMetadata) : CaffeInputTransformer :=
  { t with configured_metadata := some metadata }

/-- CaffeInputTransformerFactory::construct, an external collaborator. -/
structure CaffeInputTransformerFactory where
  construct : EvaluatorConfig → NetDescriptor → CaffeInputTransformer

/-- CaffeCPUEvaluator state (members of the class). -/
structure CaffeCPUEvaluator where
  config_ : EvaluatorConfig
  descriptor_ : NetDescriptor
  transformer_ : CaffeInputTransformer
  device_id_ : Nat
  caffe_mode_ : CaffeMode
  net_ : Net
  output_sizes_ : List Nat
  metadata_ : DatasetItemMetadata
deriving DecidableEq, Inhabited

/-- The constructor loop (lines 43-49): for each declared output layer
name, look the blob up and record output_blob->count(1) * sizeof(float).
Dereferencing a missing blob fails. -/
def computeOutputSizes (net : Net) : List String → Option (List Nat)
  | [] => some []
  | nm :: nms =>
    match net.blob_by_name nm, computeOutputSizes net nms with
    | some output_blob, some rest =>
      some (output_blob.count 1 * sizeofFloat :: rest)
    | _, _ => none

/-- CaffeCPUEvaluator::CaffeCPUEvaluator (lines 23-50).  Loading the net
from model_path / model_weights_path is external, so the loaded net is a
parameter.  The mode is set to CPU; the input blob is looked up but only
held, never dereferenced here; the per-output byte sizes are computed once.
Fails only when an output layer name resolves to no blob. -/
def CaffeCPUEvaluator.construct (config : EvaluatorConfig)
    (descriptor : NetDescriptor) (transformer : CaffeInputTransformer)
    (device_id : Nat) (net : Net) : Option CaffeCPUEvaluator :=
  (computeOutputSizes net descriptor.output_layer_names).map fun sizes =>
    { config_ := config
      descriptor_ := descriptor
      transformer_ := transformer
      device_id_ := device_id
      caffe_mode_ := device_type_to_caffe_mode DeviceType.CPU
      net_ := net
      output_sizes_ := sizes
      metadata_ := { width := 0, height := 0 } }

/-- CaffeCPUEvaluator::configure (lines 52-67), value semantics: store the
metadata, read the net input height/width from the input binding, reshape
the input blob to [max_batch_size, 3, height, width] when its batch
dimension differs from max_batch_size, and forward the metadata to the
transformer.  Fails when the input layer name resolves to no blob. -/
def CaffeCPUEvaluator.configure (e : CaffeCPUEvaluator)
    (metadata : DatasetItemMetadata) : Option CaffeCPUEvaluator :=
  match e.net_.blob_by_name e.descriptor_.input_layer_name with
  | none => none
  | some input_blob =>
    some { e with
      metadata_ := metadata,
      net_ :=
        if input_blob.shapeAt 0 ≠ e.config_.max_batch_size then
          e.net_.setBlob e.descriptor_.input_layer_name
            (input_blob.reshapeTo
              [e.config_.max_batch_size, 3, input_blob.shapeAt 2,
               input_blob.shapeAt 3])
        else e.net_,
      transformer_ := e.transformer_.configure metadata }

/-- The individual steps of CaffeCPUEvaluator::configure, used to model
the ORDER in which the source performs them. -/
inductive ConfigureEvent
  | storeMetadata
  | readInputHeight
  | readInputWidth
  | resolveInputBinding
  | readInputBatchDim
  | configureTransformer
deriving DecidableEq, Inhabited

/-- The order in which the source of CaffeCPUEvaluator::configure performs
its steps, straight off lines 52-67: the metadata store (line 53), the two
shape reads through `input_blob` (lines 56-57), the declaration that
resolves `input_blob` from the net (lines 59-60), the batch-dimension read
guarding the reshape (line 61), and the transformer configure (line 66). -/
def configureSourceOrder : List ConfigureEvent :=
  [ConfigureEvent.storeMetadata,
   ConfigureEvent.readInputHeight,
   ConfigureEvent.readInputWidth,
   ConfigureEvent.resolveInputBinding,
   ConfigureEvent.readInputBatchDim,
   ConfigureEvent.configureTransformer]

/-- A trace resolves the input binding before reading the input tensor
height/width when the resolving event strictly precedes both reads. -/
def bindingResolvedBeforeShapeReads (tr : List ConfigureEvent) : Prop :=
  tr.indexOf ConfigureEvent.resolveInputBinding <
    tr.indexOf ConfigureEvent.readInputHeight ∧
  tr.indexOf ConfigureEvent.resolveInputBinding <
    tr.indexOf ConfigureEvent.readInputWidth

instance (tr : List ConfigureEvent) :
    Decidable (bindingResolvedBeforeShapeReads tr) :=
  inferInstanceAs (Decidable (And _ _))

/-- av_image_get_buffer_size(AV_PIX_FMT_RGB24, w, h, 1): three bytes per
pixel at alignment one. -/
def av_image_get_buffer_size_RGB24 (width height : Nat) : Nat :=
  width * height * 3

/-- memcpy(dst, src, n) over byte lists: the first n bytes of src replace
the first n bytes of dst; when n exceeds the destination length the write
runs past the old end (the overrun shows up as a longer list). -/
def memcpyBytes (dst src : List Nat) (n : Nat) : List Nat :=
  src.take n ++ dst.drop n

/-- The reshape step of evaluate (lines 84-89): read the current net input
height/width, then reshape to [batch_size, 3, height, width] exactly when
the current batch dimension differs from batch_size. -/
def evaluateReshapeInput (input_blob : Blob) (batch_size : Nat) : Blob :=
  if input_blob.shapeAt 0 ≠ batch_size then
    input_blob.reshapeTo
      [batch_size, 3, input_blob.shapeAt 2, input_blob.shapeAt 3]
  else input_blob

/-- The output-saving loop of evaluate (lines 104-111): for i below
output_sizes_.size(), look up output_layer_names[i] and memcpy
batch_size * output_sizes_[i] bytes from the blob's storage start into
output_buffers[i].  Running the loop index past the end of the name or
buffer vectors is undefined in the source and maps to failure here. -/
def saveOutputs (net : Net) :
    List String → List Nat → List (List Nat) → Nat →
    Option (List (List Nat))
  | _, [], bufs, _ => some bufs
  | nm :: nms, sz :: szs, buf :: bufs, b =>
    match net.blob_by_name nm, saveOutputs net nms szs bufs b with
    | some output_blob, some rest =>
      some (memcpyBytes buf output_blob.data (b * sz) :: rest)
    | _, _ => none
  | [], _ :: _, _, _ => none
  | _ :: _, _ :: _, [], _ => none

/-- Result of one evaluate call: the mutated evaluator, the caller's
output buffers after the writes, and the profiler interval names. -/
structure EvaluateResult where
  evaluator : CaffeCPUEvaluator
  output_buffers : List (List Nat)
  profile : List String
deriving DecidableEq, Inhabited

/-- The net as it stands when the output-saving loop runs: the input blob
reshaped for this batch, its storage repopulated by the transformer
(transform_input, external), then the forward pass (external) applied. -/
def CaffeCPUEvaluator.netAfterForward (e : CaffeCPUEvaluator)
    (transform_input : List Nat → Nat → List Nat) (forwardPass : Net → Net)
    (input_buffer : List Nat) (batch_size : Nat) (input_blob : Blob) :
    Net :=
  forwardPass
    (e.net_.setBlob e.descriptor_.input_layer_name
      { shape := (evaluateReshapeInput input_blob batch_size).shape,
        data := transform_input input_buffer batch_size })

/-- CaffeCPUEvaluator::evaluate (lines 69-112): compute the (unused) frame
size, resolve the input binding, reshape it for this batch, let the
transformer populate the net input storage, run the forward pass, record
the two profiler intervals, then copy each output blob's leading
batch_size * output_sizes_[i] bytes into output_buffers[i]. -/
def CaffeCPUEvaluator.evaluate (e : CaffeCPUEvaluator)
    (transform_input : List Nat → Nat → List Nat) (forwardPass : Net → Net)
    (input_buffer : List Nat) (output_buffers : List (List Nat))
    (batch_size : Nat) : Option EvaluateResult :=
  let _frame_size :=
    av_image_get_buffer_size_RGB24 e.metadata_.width e.metadata_.height
  match e.net_.blob_by_name e.descriptor_.input_layer_name with
  | none => none
  | some input_blob =>
    match saveOutputs
        (e.netAfterForward transform_input forwardPass input_buffer
          batch_size input_blob)
        e.descriptor_.output_layer_names e.output_sizes_ output_buffers
        batch_size with
    | none => none
    | some outs =>
      some { evaluator :=
               { e with
                 net_ := e.netAfterForward transform_input forwardPass
                   input_buffer batch_size input_blob },
             output_buffers := outs,
             profile := ["caffe:transform_input", "caffe:net"] }

/-- CaffeCPUEvaluatorConstructor state (lines 114-120). -/
structure CaffeCPUEvaluatorConstructor where
  net_descriptor_ : NetDescriptor
  transformer_factory_ : CaffeInputTransformerFactory

/-- CaffeCPUEvaluatorConstructor::get_number_of_devices (lines 122-124). -/
def CaffeCPUEvaluatorConstructor.get_number_of_devices
    (_c : CaffeCPUEvaluatorConstructor) : Nat := 1

/-- CaffeCPUEvaluatorConstructor::get_input_buffer_type (lines 126-128). -/
def CaffeCPUEvaluatorConstructor.get_input_buffer_type
    (_c : CaffeCPUEvaluatorConstructor) : DeviceType := DeviceType.CPU

/-- CaffeCPUEvaluatorConstructor::get_output_buffer_type (lines 130-132). -/
def CaffeCPUEvaluatorConstructor.get_output_buffer_type
    (_c : CaffeCPUEvaluatorConstructor) : DeviceType := DeviceType.CPU

/-- CaffeCPUEvaluatorConstructor::get_number_of_outputs (lines 134-136). -/
def CaffeCPUEvaluatorConstructor.get_number_of_outputs
    (c : CaffeCPUEvaluatorConstructor) : Nat :=
  c.net_descriptor_.output_layer_names.length

/-- CaffeCPUEvaluatorConstructor::get_output_names (lines 138-140). -/
def CaffeCPUEvaluatorConstructor.get_output_names
    (c : CaffeCPUEvaluatorConstructor) : List String :=
  c.net_descriptor_.output_layer_names

/-- CaffeCPUEvaluatorConstructor::new_input_buffer (lines 142-151): a
fresh zero-initialised allocation of
max_batch_size * max_frame_width * max_frame_height * 3 * sizeof(char)
bytes. -/
def CaffeCPUEvaluatorConstructor.new_input_buffer
    (_c : CaffeCPUEvaluatorConstructor) (config : EvaluatorConfig) :
    List Nat :=
  List.replicate
    (config.max_batch_size * config.max_frame_width *
      config.max_frame_height * 3 * sizeofChar) 0

/-- CaffeCPUEvaluatorConstructor::new_evaluator (lines 167-173): build a
transformer from the factory with this config and the constructor's
descriptor, then construct the evaluator with device id 0 (the literal in
the source).  The loaded net is the external parameter. -/
def CaffeCPUEvaluatorConstructor.new_evaluator
    (c : CaffeCPUEvaluatorConstructor) (config : EvaluatorConfig)
    (net : Net) : Option CaffeCPUEvaluator :=
  CaffeCPUEvaluator.construct config c.net_descriptor_
    (c.transformer_factory_.construct config c.net_descriptor_) 0 net

/-
Concrete instances.  A small net with an input blob "data" of shape
[2, 3, 2, 2] (96 bytes of float storage) and one output blob "prob" of
shape [2, 5] (count(1) = 5, hence 20 bytes per frame, 40 bytes total),
under a config whose max_batch_size is 2.
-/

def sampleConfig : EvaluatorConfig :=
  { max_batch_size := 2, max_frame_width := 4, max_frame_height := 4,
    device_id := 0 }

def sampleDesc : NetDescriptor :=
  { model_path := "m.prototxt", model_weights_path := "m.caffemodel",
    input_layer_name := "data", output_layer_names := ["prob"] }

def sampleDataBlob : Blob :=
  { shape := [2, 3, 2, 2], data := List.replicate 96 0 }

def sampleProbBlob : Blob :=
  { shape := [2, 5], data := List.range 40 }

def sampleNet : Net := [("data", sampleDataBlob), ("prob", sampleProbBlob)]

def sampleFactory : CaffeInputTransformerFactory :=
  { construct := fun config descriptor =>
      { config := config, descriptor := descriptor,
        configured_metadata := none } }

def sampleCtor : CaffeCPUEvaluatorConstructor :=
  { net_descriptor_ := sampleDesc, transformer_factory_ := sampleFactory }

def sampleEvaluator : CaffeCPUEvaluator :=
  (sampleCtor.new_evaluator sampleConfig sampleNet).getD default

/-- A stand-in transform_input collaborator writing the right number of
float bytes for a [b, 3, 2, 2] input tensor. -/
def sampleTransform : List Nat → Nat → List Nat :=
  fun _ b => List.replicate (b * 48) 1

def sampleInput : List Nat := List.replicate 24 5

def sampleObufs : List (List Nat) := [List.replicate 40 9]

def sampleRun : Option EvaluateResult :=
  sampleEvaluator.evaluate sampleTransform id sampleInput sampleObufs 1

def sampleResult : EvaluateResult := sampleRun.getD default

/-- A net missing the "data" input binding but carrying the output blob,
so construction succeeds while configure and evaluate cannot resolve the
input layer. -/
def noInputNet : Net := [("prob", sampleProbBlob)]

def noInputEvaluator : CaffeCPUEvaluator :=
  (sampleCtor.new_evaluator sampleConfig noInputNet).getD default

/-- A config with max_batch_size 1, for driving evaluate beyond it. -/
def c1Config : EvaluatorConfig :=
  { max_batch_size := 1, max_frame_width := 4, max_frame_height := 4,
    device_id := 0 }

/-- Net whose input blob sits at batch dimension 1 and whose output blob
holds two 20-byte frame records. -/
def c1Net : Net :=
  [("data", { shape := [1, 3, 2, 2], data := List.replicate 48 0 }),
   ("prob", sampleProbBlob)]

def c1Evaluator : CaffeCPUEvaluator :=
  (sampleCtor.new_evaluator c1Config c1Net).getD default

/-- One output buffer sized for max_batch_size = 1, i.e. 20 bytes. -/
def c1Obufs : List (List Nat) := [List.replicate 20 9]

/-- Driving evaluate with batch_size 2 > max_batch_size 1. -/
def c1Run : Option EvaluateResult :=
  c1Evaluator.evaluate sampleTransform id sampleInput c1Obufs 2

/-- An input blob whose channel dimension is 1, not 3. -/
def c5DataBlob : Blob :=
  { shape := [2, 1, 2, 2], data := List.replicate 32 0 }

def c5Net : Net := [("data", c5DataBlob), ("prob", sampleProbBlob)]

def c5Evaluator : CaffeCPUEvaluator :=
  (sampleCtor.new_evaluator sampleConfig c5Net).getD default

/-- Evaluate with batch_size 1 on the channel-1 net: the reshape branch
fires and rewrites the channel dimension. -/
def c5Run : Option EvaluateResult :=
  c5Evaluator.evaluate sampleTransform id sampleInput sampleObufs 1

/-- A config whose device_id is 5, to compare against the constructed
evaluator's binding. -/
def c7Config : EvaluatorConfig :=
  { max_batch_size := 2, max_frame_width := 4, max_frame_height := 4,
    device_id := 5 }

/-- The blob named nm exists and holds at least `need` bytes of storage,
so that a memcpy of `need` bytes from its start stays inside it (the real
forward pass guarantees this for output blobs, whose storage covers
shape(0) ≥ batch_size frames of count(1) elements each). -/
def blobLenOK (net : Net) (nm : String) (need : Nat) : Bool :=
  match net.blob_by_name nm with
  | some ob => decide (need ≤ ob.data.length)
  | none => false

/-
Helper lemmas about the byte-level copy and the output-saving loop.
-/

theorem memcpyBytes_take {dst src : List Nat} {n : Nat}
    (h : n ≤ src.length) : (memcpyBytes dst src n).take n = src.take n := by
  unfold memcpyBytes
  exact List.take_left' (List.length_take_of_le h)

theorem memcpyBytes_drop {dst src : List Nat} {n : Nat}
    (h : n ≤ src.length) : (memcpyBytes dst src n).drop n = dst.drop n := by
  unfold memcpyBytes
  exact List.drop_left' (List.length_take_of_le h)

theorem memcpyBytes_take_length {dst src : List Nat} {n : Nat}
    (h : n ≤ src.length) : ((memcpyBytes dst src n).take n).length = n := by
  rw [memcpyBytes_take h]
  exact List.length_take_of_le h

theorem memcpyBytes_slice {dst src : List Nat} {n j sz : Nat}
    (hsrc : n ≤ src.length) (hj : j * sz + sz ≤ n) :
    ((memcpyBytes dst src n).drop (j * sz)).take sz =
      (src.drop (j * sz)).take sz := by
  unfold memcpyBytes
  have hlen : (src.take n).length = n := List.length_take_of_le hsrc
  have hle : j * sz ≤ (src.take n).length := by omega
  rw [List.drop_append_of_le_length hle]
  have hlendrop : ((src.take n).drop (j * sz)).length = n - j * sz := by
    rw [List.length_drop, hlen]
  have hszle : sz ≤ ((src.take n).drop (j * sz)).length := by omega
  rw [List.take_append_of_le_length hszle, List.drop_take, List.take_take]
  have : min sz (n - j * sz) = sz := Nat.min_eq_left (by omega)
  rw [this]

theorem saveOutputs_length {net : Net} :
    ∀ {nms : List String} {szs : List Nat} {bufs outs : List (List Nat)}
      {b : Nat}, saveOutputs net nms szs bufs b = some outs →
      outs.length = bufs.length := by
  intro nms szs
  induction szs generalizing nms with
  | nil =>
    intro bufs outs b h
    cases nms <;> simp [saveOutputs] at h <;> simp [h]
  | cons sz szs ih =>
    intro bufs outs b h
    cases nms with
    | nil => simp [saveOutputs] at h
    | cons nm nms =>
      cases bufs with
      | nil => simp [saveOutputs] at h
      | cons buf bufs =>
        simp only [saveOutputs] at h
        cases hob : net.blob_by_name nm with
        | none => rw [hob] at h; simp at h
        | some ob =>
          cases hrec : saveOutputs net nms szs bufs b with
          | none => rw [hob, hrec] at h; simp at h
          | some rest =>
            rw [hob, hrec] at h
            simp at h
            subst h
            simp [ih hrec]

theorem saveOutputs_getD_lt {net : Net} :
    ∀ {nms : List String} {szs : List Nat} {bufs outs : List (List Nat)}
      {b i : Nat}, saveOutputs net nms szs bufs b = some outs →
      i < szs.length →
      ∃ ob, net.blob_by_name (nms.getD i "") = some ob ∧
        outs.getD i [] =
          memcpyBytes (bufs.getD i []) ob.data (b * szs.getD i 0) := by
  intro nms szs
  induction szs generalizing nms with
  | nil => intro bufs outs b i _ hi; simp at hi
  | cons sz szs ih =>
    intro bufs outs b i h hi
    cases nms with
    | nil => simp [saveOutputs] at h
    | cons nm nms =>
      cases bufs with
      | nil => simp [saveOutputs] at h
      | cons buf bufs =>
        simp only [saveOutputs] at h
        cases hob : net.blob_by_name nm with
        | none => rw [hob] at h; simp at h
        | some ob =>
          cases hrec : saveOutputs net nms szs bufs b with
          | none => rw [hob, hrec] at h; simp at h
          | some rest =>
            rw [hob, hrec] at h
            simp at h
            subst h
            cases i with
            | zero => exact ⟨ob, hob, rfl⟩
            | succ i =>
              simp only [List.getD_cons_succ]
              exact ih hrec (by simpa using hi)

theorem saveOutputs_getD_ge {net : Net} :
    ∀ {nms : List String} {szs : List Nat} {bufs outs : List (List Nat)}
      {b i : Nat}, saveOutputs net nms szs bufs b = some outs →
      szs.length ≤ i → outs.getD i [] = bufs.getD i [] := by
  intro nms szs
  induction szs generalizing nms with
  | nil =>
    intro bufs outs b i h _
    cases nms <;> simp [saveOutputs] at h <;> simp [h]
  | cons sz szs ih =>
    intro bufs outs b i h hi
    cases nms with
    | nil => simp [saveOutputs] at h
    | cons nm nms =>
      cases bufs with
      | nil => simp [saveOutputs] at h
      | cons buf bufs =>
        simp only [saveOutputs] at h
        cases hob : net.blob_by_name nm with
        | none => rw [hob] at h; simp at h
        | some ob =>
          cases hrec : saveOutputs net nms szs bufs b with
          | none => rw [hob, hrec] at h; simp at h
          | some rest =>
            rw [hob, hrec] at h
            simp at h
            subst h
            cases i with
            | zero => simp at hi
            | succ i =>
              simp only [List.getD_cons_succ]
              exact ih hrec (by simpa using hi)

theorem computeOutputSizes_length {net : Net} :
    ∀ {nms : List String} {sizes : List Nat},
      computeOutputSizes net nms = some sizes →
      sizes.length = nms.length := by
  intro nms
  induction nms with
  | nil => intro sizes h; simp [computeOutputSizes] at h; simp [← h]
  | cons nm nms ih =>
    intro sizes h
    simp only [computeOutputSizes] at h
    cases hob : net.blob_by_name nm with
    | none => rw [hob] at h; simp at h
    | some ob =>
      cases hrec : computeOutputSizes net nms with
      | none => rw [hob, hrec] at h; simp at h
      | some rest =>
        rw [hob, hrec] at h
        simp at h
        subst h
        simp [ih hrec]

theorem computeOutputSizes_getD {net : Net} :
    ∀ {nms : List String} {sizes : List Nat} {i : Nat},
      computeOutputSizes net nms = some sizes → i < nms.length →
      ∃ ob, net.blob_by_name (nms.getD i "") = some ob ∧
        sizes.getD i 0 = ob.count 1 * sizeofFloat := by
  intro nms
  induction nms with
  | nil => intro sizes i _ hi; simp at hi
  | cons nm nms ih =>
    intro sizes i h hi
    simp only [computeOutputSizes] at h
    cases hob : net.blob_by_name nm with
    | none => rw [hob] at h; simp at h
    | some ob =>
      cases hrec : computeOutputSizes net nms with
      | none => rw [hob, hrec] at h; simp at h
      | some rest =>
        rw [hob, hrec] at h
        simp at h
        subst h
        cases i with
        | zero => exact ⟨ob, hob, rfl⟩
        | succ i =>
          simp only [List.getD_cons_succ]
          exact ih hrec (by simpa using hi)

theorem construct_eq_some {config : EvaluatorConfig}
    {descriptor : NetDescriptor} {transformer : CaffeInputTransformer}
    {device_id : Nat} {net : Net} {e : CaffeCPUEvaluator}
    (h : CaffeCPUEvaluator.construct config descriptor transformer
          device_id net = some e) :
    ∃ sizes, computeOutputSizes net descriptor.output_layer_names =
        some sizes ∧
      e = { config_ := config, descriptor_ := descriptor,
            transformer_ := transformer, device_id_ := device_id,
            caffe_mode_ := CaffeMode.CPU, net_ := net,
            output_sizes_ := sizes,
            metadata_ := { width := 0, height := 0 } } := by
  unfold CaffeCPUEvaluator.construct at h
  cases hc : computeOutputSizes net descriptor.output_layer_names with
  | none => rw [hc] at h; simp at h
  | some sizes =>
    rw [hc] at h
    simp at h
    exact ⟨sizes, rfl, h.symm⟩

theorem configure_eq_some {e : CaffeCPUEvaluator}
    {m : DatasetItemMetadata} {e' : CaffeCPUEvaluator}
    (h : e.configure m = some e') :
    ∃ ib, e.net_.blob_by_name e.descriptor_.input_layer_name = some ib ∧
      e' = { e with
        metadata_ := m,
        net_ :=
          if ib.shapeAt 0 ≠ e.config_.max_batch_size then
            e.net_.setBlob e.descriptor_.input_layer_name
              (ib.reshapeTo
                [e.config_.max_batch_size, 3, ib.shapeAt 2, ib.shapeAt 3])
          else e.net_,
        transformer_ := e.transformer_.configure m } := by
  unfold CaffeCPUEvaluator.configure at h
  cases hib : e.net_.blob_by_name e.descriptor_.input_layer_name with
  | none => rw [hib] at h; simp at h
  | some ib =>
    rw [hib] at h
    simp only [Option.some_inj] at h
    exact ⟨ib, rfl, h.symm⟩

theorem evaluate_eq_some {e : CaffeCPUEvaluator}
    {transform_input : List Nat → Nat → List Nat} {forwardPass : Net → Net}
    {input_buffer : List Nat} {output_buffers : List (List Nat)}
    {batch_size : Nat} {r : EvaluateResult}
    (h : e.evaluate transform_input forwardPass input_buffer output_buffers
          batch_size = some r) :
    ∃ ib outs,
      e.net_.blob_by_name e.descriptor_.input_layer_name = some ib ∧
      saveOutputs
        (e.netAfterForward transform_input forwardPass input_buffer
          batch_size ib)
        e.descriptor_.output_layer_names e.output_sizes_ output_buffers
        batch_size = some outs ∧
      r = { evaluator :=
              { e with
                net_ := e.netAfterForward transform_input forwardPass
                  input_buffer batch_size ib },
            output_buffers := outs,
            profile := ["caffe:transform_input", "caffe:net"] } := by
  cases hib : e.net_.blob_by_name e.descriptor_.input_layer_name with
  | none => simp [CaffeCPUEvaluator.evaluate, hib] at h
  | some ib =>
    cases hs : saveOutputs
        (e.netAfterForward transform_input forwardPass input_buffer
          batch_size ib)
        e.descriptor_.output_layer_names e.output_sizes_ output_buffers
        batch_size with
    | none => simp [CaffeCPUEvaluator.evaluate, hib, hs] at h
    | some outs =>
      simp only [CaffeCPUEvaluator.evaluate, hib, hs,
        Option.some_inj] at h
      exact ⟨ib, outs, rfl, hs, h.symm⟩

theorem blob_by_name_setBlob_self {net : Net} {nm : String} {b old : Blob}
    (h : net.blob_by_name nm = some old) :
    (net.setBlob nm b).blob_by_name nm = some b := by
  induction net with
  | nil => simp [Net.blob_by_name] at h
  | cons p net ih =>
    unfold Net.blob_by_name at h
    unfold Net.blob_by_name Net.setBlob
    rw [List.map_cons]
    by_cases hp : p.1 == nm
    · rw [if_pos hp, List.find?_cons_of_pos _ (by simp)]
      rfl
    · rw [if_neg hp,
        List.find?_cons_of_neg (p := fun q : String × Blob => q.1 == nm) _ hp]
      rw [List.find?_cons_of_neg (p := fun q : String × Blob => q.1 == nm) _ hp] at h
      exact ih h

/-- C3: the claim states that inside configure the input binding is
resolved before its shape is read — every read of the input tensor's
height/width happens after the binding has been obtained for the current
call.  The source violates this: in configureSourceOrder, both shape
reads (lines 56-57 of the source) precede the declaration resolving
`input_blob` from the net (lines 59-60), so the binding is not resolved
before the shape reads. -/
theorem C3_shape_read_before_binding :
    ¬ bindingResolvedBeforeShapeReads configureSourceOrder := by decide

/-- C1: the claim states evaluate must fail when batch_size exceeds
max_batch_size, without writing into output buffers or reshaping the net
input.  The code has no such check: with max_batch_size 1 and batch_size
2 the call succeeds, the network input tensor is reshaped to batch
dimension 2, and 2 * 20 = 40 bytes are written into an output buffer of
capacity 1 * 20 = 20 bytes — a silent buffer overrun. -/
theorem C1_evaluate_accepts_oversized_batch :
    2 > c1Config.max_batch_size ∧
    c1Run.isSome = true ∧
    (c1Obufs.getD 0 []).length = c1Config.max_batch_size * 20 ∧
    (c1Run.map fun r => (r.output_buffers.getD 0 []).length) = some 40 ∧
    (c1Run.map fun r =>
      (r.evaluator.net_.blob_by_name "data").map fun bl =>
        bl.shapeAt 0) = some (some 2) := by
  decide

/-- C5 counterexample: the claim as stated says evaluate never changes the
input tensor's channel dimension.  On a net whose input blob has shape
[2, 1, 2, 2], evaluate with batch_size 1 takes the reshape branch and
writes the constant 3 into the channel dimension: afterwards the channel
dimension is 3, not 1. -/
theorem C5_channel_dim_counterexample :
    (c5Net.blob_by_name "data").map (fun bl => bl.shapeAt 1) = some 1 ∧
    (c5Run.map fun r =>
      (r.evaluator.net_.blob_by_name "data").map fun bl =>
        bl.shapeAt 1) = some (some 3) ∧
    (1 : Nat) ≠ 3 := by
  decide

/-- C7 counterexample: the claim says the evaluator is bound to the device
the driver chose via the config's device_id.  new_evaluator passes the
literal 0 instead: with device_id 5 in the config, the constructed
evaluator is bound to device 0. -/
theorem C7_device_id_counterexample :
    c7Config.device_id = 5 ∧
    (sampleCtor.new_evaluator c7Config sampleNet).map
      (fun e => e.device_id_) = some 0 ∧
    (0 : Nat) ≠ 5 := by
  decide

/-- C8: new_input_buffer returns a buffer of exactly
max_batch_size * max_frame_width * max_frame_height * 3 bytes (the
trailing sizeof(char) factor of the source being 1). -/
theorem C8_new_input_buffer_size (c : CaffeCPUEvaluatorConstructor)
    (config : EvaluatorConfig) :
    (c.new_input_buffer config).length =
      config.max_batch_size * config.max_frame_width *
        config.max_frame_height * 3 := by
  simp [CaffeCPUEvaluatorConstructor.new_input_buffer, sizeofChar]

/-- C2: for every valid evaluate call (0 < batch_size ≤ max_batch_size,
output blobs holding enough bytes), for each declared output layer i in
declaration order, the call writes exactly batch_size * output_sizes_[i]
bytes into output_buffers[i], taken from the start of that output tensor;
bytes beyond that offset keep their old contents; and for every frame j
of the batch the bytes written for j are exactly the output tensor's
record j — order preserved. -/
theorem C2_evaluate_output_copy (e : CaffeCPUEvaluator)
    (transform_input : List Nat → Nat → List Nat) (forwardPass : Net → Net)
    (input_buffer : List Nat) (output_buffers : List (List Nat)) (b : Nat)
    (r : EvaluateResult)
    (hr : e.evaluate transform_input forwardPass input_buffer
        output_buffers b = some r)
    (_hb0 : 0 < b) (_hbm : b ≤ e.config_.max_batch_size)
    (hlen : ∀ i, i < e.output_sizes_.length →
      blobLenOK r.evaluator.net_
        (e.descriptor_.output_layer_names.getD i "")
        (b * e.output_sizes_.getD i 0) = true) :
    r.output_buffers.length = output_buffers.length ∧
    ∀ i, i < e.output_sizes_.length →
      ∃ ob,
        r.evaluator.net_.blob_by_name
          (e.descriptor_.output_layer_names.getD i "") = some ob ∧
        ((r.output_buffers.getD i []).take
            (b * e.output_sizes_.getD i 0)).length =
          b * e.output_sizes_.getD i 0 ∧
        (r.output_buffers.getD i []).take (b * e.output_sizes_.getD i 0) =
          ob.data.take (b * e.output_sizes_.getD i 0) ∧
        (r.output_buffers.getD i []).drop (b * e.output_sizes_.getD i 0) =
          (output_buffers.getD i []).drop
            (b * e.output_sizes_.getD i 0) ∧
        ∀ j, j < b →
          ((r.output_buffers.getD i []).drop
              (j * e.output_sizes_.getD i 0)).take
            (e.output_sizes_.getD i 0) =
          (ob.data.drop (j * e.output_sizes_.getD i 0)).take
            (e.output_sizes_.getD i 0) := by
  obtain ⟨ib, outs, hib, hs, hreq⟩ := evaluate_eq_some hr
  subst hreq
  refine ⟨saveOutputs_length hs, ?_⟩
  intro i hi
  obtain ⟨ob, hob, heq⟩ := saveOutputs_getD_lt hs hi
  have hlenI := hlen i hi
  have hble : b * e.output_sizes_.getD i 0 ≤ ob.data.length := by
    unfold blobLenOK at hlenI
    rw [hob] at hlenI
    simpa using hlenI
  refine ⟨ob, hob, ?_, ?_, ?_, ?_⟩
  · rw [heq]; exact memcpyBytes_take_length hble
  · rw [heq]; exact memcpyBytes_take hble
  · rw [heq]; exact memcpyBytes_drop hble
  · intro j hj
    rw [heq]
    apply memcpyBytes_slice hble
    have h2 : (j + 1) * e.output_sizes_.getD i 0 ≤
        b * e.output_sizes_.getD i 0 :=
      Nat.mul_le_mul_right _ (by omega)
    calc j * e.output_sizes_.getD i 0 + e.output_sizes_.getD i 0
        = (j + 1) * e.output_sizes_.getD i 0 := by
          rw [Nat.succ_mul]
      _ ≤ b * e.output_sizes_.getD i 0 := h2

/-- Witness for C2 at the sample evaluator, batch size 1. -/
theorem C2_evaluate_output_copy_witness :
    (sampleEvaluator.evaluate sampleTransform id sampleInput sampleObufs 1 =
        some sampleResult ∧
      0 < 1 ∧ 1 ≤ sampleEvaluator.config_.max_batch_size ∧
      ∀ i, i < sampleEvaluator.output_sizes_.length →
        blobLenOK sampleResult.evaluator.net_
          (sampleEvaluator.descriptor_.output_layer_names.getD i "")
          (1 * sampleEvaluator.output_sizes_.getD i 0) = true) ∧
    (sampleResult.output_buffers.length = sampleObufs.length ∧
      ∀ i, i < sampleEvaluator.output_sizes_.length →
        ∃ ob,
          sampleResult.evaluator.net_.blob_by_name
            (sampleEvaluator.descriptor_.output_layer_names.getD i "") =
              some ob ∧
          ((sampleResult.output_buffers.getD i []).take
              (1 * sampleEvaluator.output_sizes_.getD i 0)).length =
            1 * sampleEvaluator.output_sizes_.getD i 0 ∧
          (sampleResult.output_buffers.getD i []).take
              (1 * sampleEvaluator.output_sizes_.getD i 0) =
            ob.data.take (1 * sampleEvaluator.output_sizes_.getD i 0) ∧
          (sampleResult.output_buffers.getD i []).drop
              (1 * sampleEvaluator.output_sizes_.getD i 0) =
            (sampleObufs.getD i []).drop
              (1 * sampleEvaluator.output_sizes_.getD i 0) ∧
          ∀ j, j < 1 →
            ((sampleResult.output_buffers.getD i []).drop
                (j * sampleEvaluator.output_sizes_.getD i 0)).take
              (sampleEvaluator.output_sizes_.getD i 0) =
            (ob.data.drop (j * sampleEvaluator.output_sizes_.getD i 0)).take
              (sampleEvaluator.output_sizes_.getD i 0)) :=
  ⟨⟨by decide, by decide, by decide, by decide⟩,
    C2_evaluate_output_copy sampleEvaluator sampleTransform id sampleInput
      sampleObufs 1 sampleResult (by decide) (by decide) (by decide)
      (by decide)⟩

/-- C4: if the net has no blob named after the descriptor's declared input
layer, configure fails (the missing binding is dereferenced fatally), and
no evaluate on that evaluator can succeed either, since evaluate resolves
the same binding; if the binding exists, configure succeeds. -/
theorem C4_configure_missing_binding (e : CaffeCPUEvaluator)
    (m : DatasetItemMetadata) :
    (e.net_.blob_by_name e.descriptor_.input_layer_name = none →
      e.configure m = none ∧
      ∀ transform_input forwardPass input_buffer output_buffers batch_size,
        e.evaluate transform_input forwardPass input_buffer output_buffers
          batch_size = none) ∧
    (e.net_.blob_by_name e.descriptor_.input_layer_name ≠ none →
      (e.configure m).isSome = true) := by
  constructor
  · intro hnone
    constructor
    · unfold CaffeCPUEvaluator.configure
      rw [hnone]
    · intro transform_input forwardPass input_buffer output_buffers
        batch_size
      unfold CaffeCPUEvaluator.evaluate
      rw [hnone]
  · intro hsome
    cases hib : e.net_.blob_by_name e.descriptor_.input_layer_name with
    | none => exact absurd hib hsome
    | some ib =>
      unfold CaffeCPUEvaluator.configure
      rw [hib]
      rfl

/-- Witness for C4: the evaluator over the net lacking the "data" binding
rejects configure and every evaluate; the sample evaluator with the
binding configures successfully. -/
theorem C4_configure_missing_binding_witness :
    (noInputEvaluator.net_.blob_by_name
        noInputEvaluator.descriptor_.input_layer_name = none ∧
      noInputEvaluator.configure { width := 8, height := 8 } = none ∧
      ∀ transform_input forwardPass input_buffer output_buffers batch_size,
        noInputEvaluator.evaluate transform_input forwardPass input_buffer
          output_buffers batch_size = none) ∧
    (sampleEvaluator.net_.blob_by_name
        sampleEvaluator.descriptor_.input_layer_name ≠ none ∧
      (sampleEvaluator.configure { width := 8, height := 8 }).isSome =
        true) :=
  ⟨⟨by decide,
    ((C4_configure_missing_binding noInputEvaluator
      { width := 8, height := 8 }).1 (by decide)).1,
    ((C4_configure_missing_binding noInputEvaluator
      { width := 8, height := 8 }).1 (by decide)).2⟩,
   ⟨by decide,
    (C4_configure_missing_binding sampleEvaluator
      { width := 8, height := 8 }).2 (by decide)⟩⟩

/-- C5 (amended): within evaluate, the input-tensor reshape step reshapes
the tensor in place to [b, 3, height, width] iff the current batch
dimension differs from b, and performs no reshape when they agree; the
height and width dimensions are never changed, and the channel dimension
is preserved provided it is 3 (the value every prior reshape writes);
after the step the batch dimension equals b. -/
theorem C5_reshape_iff_batch_mismatch (ib : Blob) (b : Nat)
    (hch : ib.shapeAt 1 = 3) :
    (ib.shapeAt 0 = b → evaluateReshapeInput ib b = ib) ∧
    (ib.shapeAt 0 ≠ b →
      (evaluateReshapeInput ib b).shape =
        [b, 3, ib.shapeAt 2, ib.shapeAt 3]) ∧
    (evaluateReshapeInput ib b).shapeAt 0 = b ∧
    (evaluateReshapeInput ib b).shapeAt 1 = ib.shapeAt 1 ∧
    (evaluateReshapeInput ib b).shapeAt 2 = ib.shapeAt 2 ∧
    (evaluateReshapeInput ib b).shapeAt 3 = ib.shapeAt 3 := by
  unfold evaluateReshapeInput
  by_cases h0 : ib.shapeAt 0 = b
  · rw [if_neg (not_not_intro h0)]
    exact ⟨fun _ => rfl, fun hc => absurd h0 hc, h0, rfl, rfl, rfl⟩
  · rw [if_pos h0]
    refine ⟨fun hc => absurd hc h0, fun _ => rfl, ?_, ?_, ?_, ?_⟩
    · simp [Blob.reshapeTo, Blob.shapeAt]
    · simp [Blob.reshapeTo, Blob.shapeAt] at hch ⊢
      omega
    · simp [Blob.reshapeTo, Blob.shapeAt]
    · simp [Blob.reshapeTo, Blob.shapeAt]

/-- Witness for C5 at the sample input blob (shape [2, 3, 2, 2]) and
batch size 1, where the reshape branch fires. -/
theorem C5_reshape_iff_batch_mismatch_witness :
    sampleDataBlob.shapeAt 1 = 3 ∧
    ((sampleDataBlob.shapeAt 0 = 1 →
        evaluateReshapeInput sampleDataBlob 1 = sampleDataBlob) ∧
      (sampleDataBlob.shapeAt 0 ≠ 1 →
        (evaluateReshapeInput sampleDataBlob 1).shape =
          [1, 3, sampleDataBlob.shapeAt 2, sampleDataBlob.shapeAt 3]) ∧
      (evaluateReshapeInput sampleDataBlob 1).shapeAt 0 = 1 ∧
      (evaluateReshapeInput sampleDataBlob 1).shapeAt 1 =
        sampleDataBlob.shapeAt 1 ∧
      (evaluateReshapeInput sampleDataBlob 1).shapeAt 2 =
        sampleDataBlob.shapeAt 2 ∧
      (evaluateReshapeInput sampleDataBlob 1).shapeAt 3 =
        sampleDataBlob.shapeAt 3) :=
  ⟨by decide, C5_reshape_iff_batch_mismatch sampleDataBlob 1 (by decide)⟩

/-- C6: for every metadata, when the input binding resolves, configure
succeeds; it reshapes the network input tensor to
[max_batch_size, 3, height, width] exactly when the tensor's batch
dimension differs from the config's max_batch_size (the net is untouched
otherwise), the network-determined height and width dimensions are
unchanged, and in every case the metadata is forwarded to the input
transformer's configure operation. -/
theorem C6_configure_reshape (e : CaffeCPUEvaluator)
    (m : DatasetItemMetadata) (ib : Blob)
    (hib : e.net_.blob_by_name e.descriptor_.input_layer_name = some ib) :
    ∃ e', e.configure m = some e' ∧
      e'.transformer_ = e.transformer_.configure m ∧
      e'.metadata_ = m ∧
      (ib.shapeAt 0 = e.config_.max_batch_size → e'.net_ = e.net_) ∧
      (ib.shapeAt 0 ≠ e.config_.max_batch_size →
        e'.net_.blob_by_name e.descriptor_.input_layer_name =
          some (ib.reshapeTo
            [e.config_.max_batch_size, 3, ib.shapeAt 2, ib.shapeAt 3])) ∧
      ∀ ib', e'.net_.blob_by_name e.descriptor_.input_layer_name =
          some ib' →
        ib'.shapeAt 2 = ib.shapeAt 2 ∧ ib'.shapeAt 3 = ib.shapeAt 3 := by
  unfold CaffeCPUEvaluator.configure
  rw [hib]
  refine ⟨_, rfl, rfl, rfl, ?_, ?_, ?_⟩
  · intro h0
    simp only
    rw [if_neg (not_not_intro h0)]
  · intro h0
    simp only
    rw [if_pos h0]
    exact blob_by_name_setBlob_self hib
  · intro ib' h'
    simp only at h'
    by_cases h0 : ib.shapeAt 0 = e.config_.max_batch_size
    · rw [if_neg (not_not_intro h0), hib, Option.some_inj] at h'
      subst h'
      exact ⟨rfl, rfl⟩
    · rw [if_pos h0, blob_by_name_setBlob_self hib,
        Option.some_inj] at h'
      subst h'
      constructor <;> simp [Blob.reshapeTo, Blob.shapeAt]

/-- Witness for C6 at the sample evaluator, whose input blob already sits
at the config's max batch dimension. -/
theorem C6_configure_reshape_witness :
    sampleEvaluator.net_.blob_by_name
        sampleEvaluator.descriptor_.input_layer_name =
      some sampleDataBlob ∧
    ∃ e', sampleEvaluator.configure { width := 8, height := 8 } =
        some e' ∧
      e'.transformer_ =
        sampleEvaluator.transformer_.configure { width := 8, height := 8 } ∧
      e'.metadata_ = { width := 8, height := 8 } ∧
      (sampleDataBlob.shapeAt 0 = sampleEvaluator.config_.max_batch_size →
        e'.net_ = sampleEvaluator.net_) ∧
      (sampleDataBlob.shapeAt 0 ≠ sampleEvaluator.config_.max_batch_size →
        e'.net_.blob_by_name sampleEvaluator.descriptor_.input_layer_name =
          some (sampleDataBlob.reshapeTo
            [sampleEvaluator.config_.max_batch_size, 3,
             sampleDataBlob.shapeAt 2, sampleDataBlob.shapeAt 3])) ∧
      ∀ ib', e'.net_.blob_by_name
          sampleEvaluator.descriptor_.input_layer_name = some ib' →
        ib'.shapeAt 2 = sampleDataBlob.shapeAt 2 ∧
        ib'.shapeAt 3 = sampleDataBlob.shapeAt 3 :=
  ⟨by decide,
    C6_configure_reshape sampleEvaluator { width := 8, height := 8 }
      sampleDataBlob (by decide)⟩

/-- C7 (amended): new_evaluator builds an evaluator whose private input
transformer is produced by the transformer factory from that config and
the constructor's net descriptor, and whose config and descriptor are
exactly those; the evaluator is bound to device 0 — the source passes the
literal 0, ignoring the config's device_id — in CPU Caffe mode, and
neither configure nor evaluate ever changes the device binding or the
mode. -/
theorem C7_new_evaluator_binding (c : CaffeCPUEvaluatorConstructor)
    (config : EvaluatorConfig) (net : Net) (e : CaffeCPUEvaluator)
    (h : c.new_evaluator config net = some e) :
    e.transformer_ =
      c.transformer_factory_.construct config c.net_descriptor_ ∧
    e.config_ = config ∧
    e.descriptor_ = c.net_descriptor_ ∧
    e.device_id_ = 0 ∧
    e.caffe_mode_ = CaffeMode.CPU ∧
    (∀ m e', e.configure m = some e' →
      e'.device_id_ = e.device_id_ ∧ e'.caffe_mode_ = e.caffe_mode_) ∧
    ∀ transform_input forwardPass input_buffer output_buffers batch_size r,
      e.evaluate transform_input forwardPass input_buffer output_buffers
        batch_size = some r →
      r.evaluator.device_id_ = e.device_id_ ∧
      r.evaluator.caffe_mode_ = e.caffe_mode_ := by
  unfold CaffeCPUEvaluatorConstructor.new_evaluator at h
  obtain ⟨sizes, hsz, he⟩ := construct_eq_some h
  subst he
  refine ⟨rfl, rfl, rfl, rfl, rfl, ?_, ?_⟩
  · intro m e' hc
    obtain ⟨ib, hib, he'⟩ := configure_eq_some hc
    subst he'
    exact ⟨rfl, rfl⟩
  · intro transform_input forwardPass input_buffer output_buffers
      batch_size r hr
    obtain ⟨ib, outs, hib, hs, hre⟩ := evaluate_eq_some hr
    subst hre
    exact ⟨rfl, rfl⟩

/-- Witness for C7 at the sample constructor and config. -/
theorem C7_new_evaluator_binding_witness :
    sampleCtor.new_evaluator sampleConfig sampleNet =
        some sampleEvaluator ∧
    (sampleEvaluator.transformer_ =
        sampleCtor.transformer_factory_.construct sampleConfig
          sampleCtor.net_descriptor_ ∧
      sampleEvaluator.config_ = sampleConfig ∧
      sampleEvaluator.descriptor_ = sampleCtor.net_descriptor_ ∧
      sampleEvaluator.device_id_ = 0 ∧
      sampleEvaluator.caffe_mode_ = CaffeMode.CPU ∧
      (∀ m e', sampleEvaluator.configure m = some e' →
        e'.device_id_ = sampleEvaluator.device_id_ ∧
        e'.caffe_mode_ = sampleEvaluator.caffe_mode_) ∧
      ∀ transform_input forwardPass input_buffer output_buffers
          batch_size r,
        sampleEvaluator.evaluate transform_input forwardPass input_buffer
          output_buffers batch_size = some r →
        r.evaluator.device_id_ = sampleEvaluator.device_id_ ∧
        r.evaluator.caffe_mode_ = sampleEvaluator.caffe_mode_) :=
  ⟨by decide,
    C7_new_evaluator_binding sampleCtor sampleConfig sampleNet
      sampleEvaluator (by decide)⟩

/-- C9: get_number_of_outputs equals the length of get_output_names, and
both equal the number of output buffers an evaluator built by that
constructor touches during evaluate: every buffer index below that count
is written by the output-copy loop, with layer i (in declaration order)
feeding buffer i, and every buffer at or beyond that count is returned
unchanged. -/
theorem C9_output_arity (c : CaffeCPUEvaluatorConstructor)
    (config : EvaluatorConfig) (net : Net) (e : CaffeCPUEvaluator)
    (h : c.new_evaluator config net = some e) :
    c.get_number_of_outputs = c.get_output_names.length ∧
    e.output_sizes_.length = c.get_number_of_outputs ∧
    ∀ transform_input forwardPass input_buffer output_buffers batch_size r,
      e.evaluate transform_input forwardPass input_buffer output_buffers
        batch_size = some r →
      r.output_buffers.length = output_buffers.length ∧
      (∀ i, i < c.get_number_of_outputs →
        ∃ ob, r.evaluator.net_.blob_by_name
            (c.get_output_names.getD i "") = some ob ∧
          r.output_buffers.getD i [] =
            memcpyBytes (output_buffers.getD i []) ob.data
              (batch_size * e.output_sizes_.getD i 0)) ∧
      ∀ i, c.get_number_of_outputs ≤ i →
        r.output_buffers.getD i [] = output_buffers.getD i [] := by
  unfold CaffeCPUEvaluatorConstructor.new_evaluator at h
  obtain ⟨sizes, hsz, he⟩ := construct_eq_some h
  subst he
  have hlen : sizes.length = c.net_descriptor_.output_layer_names.length :=
    computeOutputSizes_length hsz
  refine ⟨rfl, hlen, ?_⟩
  intro transform_input forwardPass input_buffer output_buffers
    batch_size r hr
  obtain ⟨ib, outs, hib, hs, hre⟩ := evaluate_eq_some hr
  subst hre
  refine ⟨saveOutputs_length hs, ?_, ?_⟩
  · intro i hi
    exact saveOutputs_getD_lt hs (by
      simpa [hlen] using hi)
  · intro i hi
    exact saveOutputs_getD_ge hs (by
      simpa [hlen] using hi)

/-- Witness for C9 at the sample constructor and the sample run. -/
theorem C9_output_arity_witness :
    sampleCtor.new_evaluator sampleConfig sampleNet =
        some sampleEvaluator ∧
    (sampleCtor.get_number_of_outputs =
        sampleCtor.get_output_names.length ∧
      sampleEvaluator.output_sizes_.length =
        sampleCtor.get_number_of_outputs ∧
      ∀ transform_input forwardPass input_buffer output_buffers
          batch_size r,
        sampleEvaluator.evaluate transform_input forwardPass input_buffer
          output_buffers batch_size = some r →
        r.output_buffers.length = output_buffers.length ∧
        (∀ i, i < sampleCtor.get_number_of_outputs →
          ∃ ob, r.evaluator.net_.blob_by_name
              (sampleCtor.get_output_names.getD i "") = some ob ∧
            r.output_buffers.getD i [] =
              memcpyBytes (output_buffers.getD i []) ob.data
                (batch_size * sampleEvaluator.output_sizes_.getD i 0)) ∧
        ∀ i, sampleCtor.get_number_of_outputs ≤ i →
          r.output_buffers.getD i [] = output_buffers.getD i []) :=
  ⟨by decide,
    C9_output_arity sampleCtor sampleConfig sampleNet sampleEvaluator
      (by decide)⟩

/-- C10: the per-frame output byte sizes are computed exactly once, at
construction, as each output blob's count(1) times sizeof(float), in the
descriptor's output-name order; configure never modifies the list, nor
does evaluate, so an evaluate after reconfiguration still memcpys with
the construction-time sizes. -/
theorem C10_output_sizes_fixed (config : EvaluatorConfig)
    (descriptor : NetDescriptor) (transformer : CaffeInputTransformer)
    (device_id : Nat) (net : Net) (e : CaffeCPUEvaluator)
    (h : CaffeCPUEvaluator.construct config descriptor transformer
        device_id net = some e) :
    e.output_sizes_.length = descriptor.output_layer_names.length ∧
    (∀ i, i < descriptor.output_layer_names.length →
      ∃ ob, net.blob_by_name (descriptor.output_layer_names.getD i "") =
          some ob ∧
        e.output_sizes_.getD i 0 = ob.count 1 * sizeofFloat) ∧
    ∀ m e', e.configure m = some e' →
      e'.output_sizes_ = e.output_sizes_ ∧
      ∀ transform_input forwardPass input_buffer output_buffers
          batch_size r,
        e'.evaluate transform_input forwardPass input_buffer
          output_buffers batch_size = some r →
        r.evaluator.output_sizes_ = e.output_sizes_ ∧
        ∀ i, i < e.output_sizes_.length →
          ∃ ob, r.evaluator.net_.blob_by_name
              (descriptor.output_layer_names.getD i "") = some ob ∧
            r.output_buffers.getD i [] =
              memcpyBytes (output_buffers.getD i []) ob.data
                (batch_size * e.output_sizes_.getD i 0) := by
  obtain ⟨sizes, hsz, he⟩ := construct_eq_some h
  subst he
  refine ⟨computeOutputSizes_length hsz, fun i hi =>
    computeOutputSizes_getD hsz hi, ?_⟩
  intro m e' hc
  obtain ⟨ib, hib, he'⟩ := configure_eq_some hc
  subst he'
  refine ⟨rfl, ?_⟩
  intro transform_input forwardPass input_buffer output_buffers
    batch_size r hr
  obtain ⟨ib', outs, hib', hs, hre⟩ := evaluate_eq_some hr
  subst hre
  exact ⟨rfl, fun i hi => saveOutputs_getD_lt hs hi⟩

/-- Witness for C10 across construction, reconfiguration and a run. -/
theorem C10_output_sizes_fixed_witness :
    CaffeCPUEvaluator.construct sampleConfig sampleDesc
        (sampleFactory.construct sampleConfig sampleDesc) 0 sampleNet =
      some sampleEvaluator ∧
    (sampleEvaluator.output_sizes_.length =
        sampleDesc.output_layer_names.length ∧
      (∀ i, i < sampleDesc.output_layer_names.length →
        ∃ ob, sampleNet.blob_by_name
            (sampleDesc.output_layer_names.getD i "") = some ob ∧
          sampleEvaluator.output_sizes_.getD i 0 =
            ob.count 1 * sizeofFloat) ∧
      ∀ m e', sampleEvaluator.configure m = some e' →
        e'.output_sizes_ = sampleEvaluator.output_sizes_ ∧
        ∀ transform_input forwardPass input_buffer output_buffers
            batch_size r,
          e'.evaluate transform_input forwardPass input_buffer
            output_buffers batch_size = some r →
          r.evaluator.output_sizes_ = sampleEvaluator.output_sizes_ ∧
          ∀ i, i < sampleEvaluator.output_sizes_.length →
            ∃ ob, r.evaluator.net_.blob_by_name
                (sampleDesc.output_layer_names.getD i "") = some ob ∧
              r.output_buffers.getD i [] =
                memcpyBytes (output_buffers.getD i []) ob.data
                  (batch_size * sampleEvaluator.output_sizes_.getD i 0)) :=
  ⟨by decide,
    C10_output_sizes_fixed sampleConfig sampleDesc
      (sampleFactory.construct sampleConfig sampleDesc) 0 sampleNet
      sampleEvaluator (by decide)⟩

end Scanner
